import Mathlib

/-!
Shallow embedding of the conversation orchestrator (`CallManager` in the
repository source) together with the external collaborator behaviours it
depends on.  Pure functions of the source are translated to Lean functions;
the mutable per-process registry, the durable record store and the side
effects (message persistence, outbound messages, scheduled completions) are
threaded through an explicit `SysState`.  Outcomes of fallible external
calls (storage reads and writes, response generation, speech synthesis,
follow-up messaging) are supplied by explicit oracle records, one flag or
value per call site, so that every exception path of the source is a branch
of the embedded function.
-/

namespace CallMgr

/-- JavaScript string truthiness: `undefined`/`null` and the empty string
are falsy, every other string is truthy. -/
def jsTruthyS : Option String → Bool
  | none => false
  | some s => !s.isEmpty

/-- JavaScript `a || b` on string-or-undefined values. -/
def jsOrS (a b : Option String) : Option String :=
  if jsTruthyS a then a else b

/-- JavaScript `a || d` where `a` is an optional number and `d` a number:
`undefined` and `0` are falsy. -/
def jsOrNat (a : Option Nat) (d : Nat) : Nat :=
  match a with
  | some n => if n = 0 then d else n
  | none => d

/-- JavaScript `a || d` returning the default string when `a` is absent or
empty (used for `campaign.language || 'en'`). -/
def jsOrSD (a : Option String) (d : String) : String :=
  match a with
  | some s => if s.isEmpty then d else s
  | none => d

/-- `sub` is an initial segment of `l`. -/
def listLeads : List Char → List Char → Bool
  | [], _ => true
  | _ :: _, [] => false
  | a :: as, b :: bs => a == b && listLeads as bs

/-- `sub` occurs contiguously somewhere inside `l`
(JavaScript `String.prototype.includes`). -/
def listWithin (sub : List Char) : List Char → Bool
  | [] => listLeads sub []
  | l@(_ :: t) => listLeads sub l || listWithin sub t

/-- ASCII-style lower casing of a string (JavaScript `toLowerCase` on the
phrases the source screens for). -/
def lowerStr (s : String) : String :=
  String.mk (s.data.map Char.toLower)

/-- `s.toLowerCase().includes(sub)` for an already-lower-case `sub`. -/
def containsLC (s sub : String) : Bool :=
  listWithin sub.data (lowerStr s).data

/-- Character class of the phone pattern `[\d\s\-\(\)]` used by the
post-call extraction regex. -/
def isPhoneChar (c : Char) : Bool :=
  c.isDigit || c.isWhitespace || c = '-' || c = '(' || c = ')'

/-- Attempt of the regex `\+?[\d\s\-\(\)]{10,}` anchored at the head of
`l`: an optional plus sign, then a greedy run of at least ten phone
characters.  When the plus sign is consumed but the following run is too
short there is no match at this position, because backtracking the
optional plus leaves the plus sign itself, which is outside the class. -/
def phoneMatchAt (l : List Char) : Option (List Char) :=
  match l with
  | '+' :: rest =>
    let run := rest.takeWhile isPhoneChar
    if run.length ≥ 10 then some ('+' :: run) else none
  | _ =>
    let run := l.takeWhile isPhoneChar
    if run.length ≥ 10 then some run else none

/-- Leftmost match of the phone regex in `l` (JavaScript `String.match`
semantics: first start position at which the pattern matches wins). -/
def findPhoneMatch : List Char → Option (List Char)
  | [] => none
  | l@(_ :: t) =>
    match phoneMatchAt l with
    | some m => some m
    | none => findPhoneMatch t

/-- The regex word class `\w`. -/
def isWordChar (c : Char) : Bool :=
  c.isAlphanum || c = '_'

/-- The class `[\w\.-]` of the email pattern. -/
def isLocalChar (c : Char) : Bool :=
  isWordChar c || c = '.' || c = '-'

/-- Backtracking search for the domain part `[\w\.-]+\.\w+` of the email
regex inside the maximal class run `R` after the at sign: the greedy
domain chunk is shrunk from the right until the next character is a dot
followed by a word character; the trailing `\w+` is then the greedy word
run after that dot. -/
def emailDomainGo (R : List Char) : Nat → Option (List Char)
  | 0 => none
  | n + 1 =>
    match R.drop (n + 1) with
    | '.' :: c :: _ =>
      if isWordChar c then
        some (R.take (n + 1) ++ '.' :: (R.drop (n + 2)).takeWhile isWordChar)
      else emailDomainGo R n
    | _ => emailDomainGo R n

def emailDomain (R : List Char) : Option (List Char) :=
  emailDomainGo R (R.length - 1)

/-- Attempt of the regex `[\w\.-]+@[\w\.-]+\.\w+` anchored at the head of
`l`.  The local part is the greedy class run before a literal at sign;
shrinking it cannot help because every shorter run is followed by a class
character, never by the at sign. -/
def emailMatchAt (l : List Char) : Option (List Char) :=
  let localPart := l.takeWhile isLocalChar
  if localPart.isEmpty then none
  else
    match l.drop localPart.length with
    | '@' :: rest =>
      let R := rest.takeWhile isLocalChar
      match emailDomain R with
      | some dom => some (localPart ++ '@' :: dom)
      | none => none
    | _ => none

/-- Leftmost match of the email regex in `l`. -/
def findEmailMatch : List Char → Option (List Char)
  | [] => none
  | l@(_ :: t) =>
    match emailMatchAt l with
    | some m => some m
    | none => findEmailMatch t

/-- `match[1].replace(/\D/g, '')` of the post-call phone handling. -/
def digitsOnly (s : String) : String :=
  String.mk (s.data.filter Char.isDigit)

/-! ## Data model -/

inductive Role
  | user
  | assistant
deriving DecidableEq, Repr

inductive CallStatus
  | active
  | completed
  | failed
deriving DecidableEq, Repr

structure ConversationTurn where
  role : Role
  content : String
  timestamp : Nat
deriving DecidableEq, Repr

/-- In-memory session of a live call (`ActiveCall` in the source). -/
structure ActiveCall where
  id : String
  contactId : String
  campaignId : String
  phoneNumber : String
  twilioCallSid : String
  conversationHistory : List ConversationTurn
  status : CallStatus
  startTime : Nat
deriving DecidableEq, Repr

/-- Durable call record held by the store.  Nullable columns are options. -/
structure DbCall where
  id : String
  contactId : Option String := none
  campaignId : Option String := none
  phoneNumber : String := ""
  twilioCallSid : Option String := none
  status : CallStatus := .active
  startTime : Nat := 0
  endTime : Option Nat := none
  duration : Option Nat := none
  extractedWhatsapp : Option String := none
  extractedEmail : Option String := none
  conversationSummary : Option String := none
  whatsappSent : Bool := false
deriving DecidableEq, Repr

/-- Campaign configuration snapshot, the fields the orchestrator reads. -/
structure Campaign where
  id : String
  script : Option String := none
  aiPrompt : Option String := none
  voiceId : String := ""
  language : Option String := none
  openaiModel : Option String := none
  elevenlabsModel : Option String := none
deriving DecidableEq, Repr

/-- Extraction result (`directSpeechService.extractContactInfo` output). -/
structure ContactInfo where
  whatsapp : Option String
  email : Option String
deriving DecidableEq, Repr

/-- Modelled from the spec: `directSpeechService.extractContactInfo` is not
part of the provided sources; sections 2 and 4.2 step 4 of the
specification describe it as pure pattern matching that pulls the first
phone-like run of at least ten digit or separator characters and the first
`local@domain.tld` email token out of the utterance. -/
def extractContactInfo (s : String) : ContactInfo :=
  { whatsapp := (findPhoneMatch s.data).map String.mk
    email := (findEmailMatch s.data).map String.mk }

/-! ## Control markup -/

inductive TwimlMode
  | gather
  | hangup
deriving DecidableEq, Repr

structure TwimlOpts where
  text : Option String := none
  audioUrl : Option String := none
  language : Option String := none
  voice : Option String := none
  action : Option String := none
  recordingCallback : Option String := none
  addTypingSound : Bool := false
  addThinkingPause : Bool := false
deriving DecidableEq, Repr

structure Twiml where
  mode : TwimlMode
  opts : TwimlOpts
deriving DecidableEq, Repr

/-- Modelled from the spec: `twilioService.generateTwiML` is not part of
the provided sources; section 4.4 of the specification describes it as a
pure, deterministic, injective-enough mapping from an intent plus options
to provider markup, so the embedding represents the produced markup
directly by those inputs. -/
def generateTwiML (mode : TwimlMode) (opts : TwimlOpts) : Twiml :=
  ⟨mode, opts⟩

/-! ## System state and storage -/

/-- A partial update passed to `storage.updateCall`; absent fields leave
the stored record unchanged. -/
structure CallPatch where
  status : Option CallStatus := none
  endTime : Option Nat := none
  duration : Option Nat := none
  extractedWhatsapp : Option String := none
  extractedEmail : Option String := none
  conversationSummary : Option String := none
  whatsappSent : Option Bool := none
deriving DecidableEq, Repr

/-- Association-list lookup keyed by call or campaign id. -/
def lookupA {α : Type} (m : List (String × α)) (k : String) : Option α :=
  match m with
  | [] => none
  | (k', v) :: t => if k' = k then some v else lookupA t k

def removeA {α : Type} (m : List (String × α)) (k : String) : List (String × α) :=
  m.filter (fun p => !(p.1 == k))

def mapInsert {α : Type} (m : List (String × α)) (k : String) (v : α) :
    List (String × α) :=
  (k, v) :: removeA m k

/-- The whole observable state: the in-memory registry, the durable store,
the campaign table, the persisted conversation messages, the outbound
follow-up messages, the log of storage update invocations, and the
scheduled delayed completions. -/
structure SysState where
  activeCalls : List (String × ActiveCall) := []
  db : List (String × DbCall) := []
  campaigns : List (String × Campaign) := []
  messages : List (String × Role × String) := []
  whatsappOutbox : List (String × String) := []
  updates : List (String × CallPatch) := []
  scheduled : List (String × Nat) := []
deriving DecidableEq, Repr

/-- Modelled from the spec: the storage collaborator is not part of the
provided sources; section 6 specifies `updateCallRecord(id, partialFields)`
as a partial update, so fields passed as `undefined` are left unchanged. -/
def applyPatch (c : DbCall) (p : CallPatch) : DbCall :=
  { c with
    status := p.status.getD c.status
    endTime := match p.endTime with | some t => some t | none => c.endTime
    duration := match p.duration with | some d => some d | none => c.duration
    extractedWhatsapp :=
      match p.extractedWhatsapp with | some w => some w | none => c.extractedWhatsapp
    extractedEmail :=
      match p.extractedEmail with | some e => some e | none => c.extractedEmail
    conversationSummary :=
      match p.conversationSummary with | some s => some s | none => c.conversationSummary
    whatsappSent := p.whatsappSent.getD c.whatsappSent }

/-- `storage.updateCall`: records the invocation and applies the patch to
the stored record when it exists. -/
def updateCallSt (st : SysState) (callId : String) (p : CallPatch) : SysState :=
  { st with
    updates := st.updates ++ [(callId, p)]
    db :=
      match lookupA st.db callId with
      | some rec => mapInsert st.db callId (applyPatch rec p)
      | none => st.db }

/-! ## Oracles for external outcomes -/

/-- Outcomes of the external calls performed while processing one turn.
A `false` flag means that call throws; `generated` is the response
generator outcome (`none` when the generator throws); `synthesisOk` covers
the whole synthesis block (text-to-speech, audio file write, URL
construction); `now` is the clock reading used for timestamps and the
audio file name. -/
structure TurnOracle where
  getCallReconstructOk : Bool := true
  getCampaignOk : Bool := true
  getCallCurrentOk : Bool := true
  updateContactOk : Bool := true
  generated : Option String := some ""
  saveUserMsgOk : Bool := true
  saveAssistantMsgOk : Bool := true
  synthesisOk : Bool := true
  now : Nat := 0
deriving DecidableEq, Repr

/-- Outcomes of the external calls performed during call completion.  A
`false` flag means the corresponding storage write throws (the exception
is swallowed by the enclosing try/catch, aborting the rest of that block):
`updateStatusOk` for the completed-status/duration write, `updateSummaryOk`
for the summary write, `updateFieldsOk` for the post-call extracted-fields
write, and `updateSentOk` for the follow-up-sent flag write.  `summary` is
the summary-generation outcome (`none` when the generator throws; that
exception is caught inside `generateCallSummary` and replaced by a fixed
fallback string); `sendOk` is the follow-up message send result; `now` is
the clock reading. -/
structure CompleteOracle where
  updateStatusOk : Bool := true
  summary : Option String := some ""
  updateSummaryOk : Bool := true
  updateFieldsOk : Bool := true
  sendOk : Bool := true
  updateSentOk : Bool := true
  now : Nat := 0
deriving DecidableEq, Repr

/-! ## The orchestrator -/

structure TurnResult where
  twiml : Twiml
  success : Bool
deriving DecidableEq, Repr

/-- The catch-all response of `processSpeechInput` (outer `catch`). -/
def apologyHangup : Twiml :=
  generateTwiML .hangup
    { text := some "I apologize, there was a technical issue. Thank you for your time."
      language := some "en"
      voice := some "alice" }

/-- The closing line used when a call is not resumable or its campaign is
missing. -/
def goodbyeHangup : Twiml :=
  generateTwiML .hangup
    { text := some "Thank you for your time. Goodbye."
      language := some "en"
      voice := some "alice" }

/-- The fixed apology of the synthesis-failure branch. -/
def synthesisApologyText : String :=
  "I apologize, there was a technical issue. We will call you back shortly."

/-- Termination policy of the source, evaluated after both turns of the
exchange have been appended: end when both contact fields are truthy and
the history is long enough or the reply contains a closing phrase, or when
the caller utterance contains an opt-out phrase. -/
def shouldEndCall (merged : ContactInfo) (historyLen : Nat)
    (aiResponse speechText : String) : Bool :=
  (jsTruthyS merged.whatsapp && jsTruthyS merged.email &&
    (historyLen ≥ 8 ||
     containsLC aiResponse "thank you for your time" ||
     containsLC aiResponse "goodbye"))
  || containsLC speechText "not interested"
  || containsLC speechText "hang up"

/-- The session materialized from a durable record on reconstruction and
by `ensureCallIsTracked`: fresh, with an empty turn history. -/
def freshSessionFromDb (dbCall : DbCall) : ActiveCall :=
  { id := dbCall.id
    contactId := dbCall.contactId.getD ""
    campaignId := dbCall.campaignId.getD ""
    phoneNumber := dbCall.phoneNumber
    twilioCallSid := dbCall.twilioCallSid.getD ""
    conversationHistory := []
    status := .active
    startTime := dbCall.startTime }

/-- `CallManager.ensureCallIsTracked`: registers a fresh session for the
id unless one is already tracked. -/
def ensureCallIsTracked (st : SysState) (callId : String) (dbCall : DbCall) :
    SysState :=
  match lookupA st.activeCalls callId with
  | some _ => st
  | none =>
    { st with activeCalls := mapInsert st.activeCalls callId (freshSessionFromDb dbCall) }

/-- Continuation of the turn pipeline after the contact-info merge:
response generation, the in-memory and durable turn appends, the
termination decision, synthesis and markup construction. -/
def processTurnAfterMerge (st : SysState) (o : TurnOracle)
    (callId speechText : String) (campaign : Campaign)
    (hist1 : List ConversationTurn) (hasContactInfo : ContactInfo) :
    TurnResult × SysState :=
  match o.generated with
  | none => (⟨apologyHangup, false⟩, st)
  | some aiResponse =>
    let hist2 := hist1 ++ [⟨Role.assistant, aiResponse, o.now⟩]
    let ac2 : ActiveCall :=
      match lookupA st.activeCalls callId with
      | some a => { a with conversationHistory := hist2 }
      | none => { id := callId, contactId := "", campaignId := campaign.id,
                  phoneNumber := "", twilioCallSid := "",
                  conversationHistory := hist2, status := .active, startTime := 0 }
    let st3 := { st with activeCalls := mapInsert st.activeCalls callId ac2 }
    let st4 :=
      if o.saveUserMsgOk then
        let stA := { st3 with messages := st3.messages ++ [(callId, Role.user, speechText)] }
        if o.saveAssistantMsgOk then
          { stA with messages := stA.messages ++ [(callId, Role.assistant, aiResponse)] }
        else stA
      else st3
    let shouldEnd := shouldEndCall hasContactInfo hist2.length aiResponse speechText
    if o.synthesisOk then
      let audioUrl :=
        "https://ai-lead-generation-house.onrender.com/audio/response_" ++
          callId ++ "_" ++ toString o.now ++ ".mp3"
      if shouldEnd then
        (⟨generateTwiML .hangup
            { audioUrl := some audioUrl
              language := some (jsOrSD campaign.language "en")
              addTypingSound := true
              addThinkingPause := true }, true⟩,
         { st4 with scheduled := st4.scheduled ++ [(callId, 1000)] })
      else
        (⟨generateTwiML .gather
            { audioUrl := some audioUrl
              action := some ("/api/calls/" ++ callId ++ "/process-speech")
              recordingCallback := some ("/api/calls/recording-complete?callId=" ++ callId)
              language := some (jsOrSD campaign.language "en")
              addTypingSound := true
              addThinkingPause := true }, true⟩, st4)
    else
      (⟨generateTwiML .hangup
          { text := some synthesisApologyText
            language := some (jsOrSD campaign.language "en")
            addTypingSound := true }, true⟩,
       { st4 with scheduled := st4.scheduled ++ [(callId, 1000)] })

/-- Body of the turn pipeline once a session has been resolved, mirroring
the source from the campaign fetch to the returned markup.  `st` already
holds the session under `callId`; throwing storage or generation calls
fall to the outer catch, which returns the fixed apology with the state
reached so far. -/
def processTurn (st : SysState) (o : TurnOracle) (callId speechText : String)
    (ac : ActiveCall) : TurnResult × SysState :=
  if !o.getCampaignOk then (⟨apologyHangup, false⟩, st)
  else
    match lookupA st.campaigns ac.campaignId with
    | none => (⟨goodbyeHangup, false⟩, st)
    | some campaign =>
      let hist1 := ac.conversationHistory ++ [⟨Role.user, speechText, o.now⟩]
      let ac1 := { ac with conversationHistory := hist1 }
      let st1 := { st with activeCalls := mapInsert st.activeCalls callId ac1 }
      let contactInfo := extractContactInfo speechText
      if !o.getCallCurrentOk then (⟨apologyHangup, false⟩, st1)
      else
        let currentCall := lookupA st1.db callId
        let hasContactInfo : ContactInfo :=
          { whatsapp := jsOrS (currentCall.bind (·.extractedWhatsapp)) contactInfo.whatsapp
            email := jsOrS (currentCall.bind (·.extractedEmail)) contactInfo.email }
        if jsTruthyS contactInfo.whatsapp || jsTruthyS contactInfo.email then
          if !o.updateContactOk then (⟨apologyHangup, false⟩, st1)
          else
            processTurnAfterMerge
              (updateCallSt st1 callId
                { extractedWhatsapp := hasContactInfo.whatsapp
                  extractedEmail := hasContactInfo.email })
              o callId speechText campaign hist1 hasContactInfo
        else
          processTurnAfterMerge st1 o callId speechText campaign hist1 hasContactInfo

/-- `CallManager.processSpeechInput`: resolves or reconstructs the session
and runs the turn pipeline.  A call absent from both the registry and the
store, or whose record is no longer active, immediately receives the
goodbye hangup. -/
def processSpeechInput (st : SysState) (o : TurnOracle)
    (callId speechText : String) : TurnResult × SysState :=
  match lookupA st.activeCalls callId with
  | some ac => processTurn st o callId speechText ac
  | none =>
    if !o.getCallReconstructOk then (⟨apologyHangup, false⟩, st)
    else
      match lookupA st.db callId with
      | some dbCall =>
        if dbCall.status = CallStatus.active then
          let ac := freshSessionFromDb dbCall
          processTurn { st with activeCalls := mapInsert st.activeCalls callId ac }
            o callId speechText ac
        else (⟨goodbyeHangup, false⟩, st)
      | none => (⟨goodbyeHangup, false⟩, st)

/-- Fallback string of `generateCallSummary`. -/
def fallbackSummary : String := "Call completed - summary generation failed"

/-- Follow-up message text of `processPostCallActions`. -/
def followUpMessage : String :=
  "Thank you for your time during our call. We\x27ll follow up with the information discussed about LabsCheck partnerships."

/-- `CallManager.processPostCallActions`: re-extracts a phone and an email
from the whole joined conversation text with the post-call regexes, writes
whatever was found to the durable record, and sends the follow-up message
when a phone was found.  Every step runs inside the method's own
try/catch: a throwing storage write aborts the rest of the block and is
swallowed, leaving the state as mutated so far. -/
def processPostCallActions (st : SysState) (o : CompleteOracle) (callId : String)
    (conversationHistory : List ConversationTurn) : SysState :=
  let conversationText :=
    String.intercalate " " (conversationHistory.map (·.content))
  let whatsappMatch := findPhoneMatch conversationText.data
  let emailMatch := findEmailMatch conversationText.data
  if whatsappMatch.isSome || emailMatch.isSome then
    if !o.updateFieldsOk then st
    else
      let extractedWhatsapp := whatsappMatch.map (fun l => digitsOnly (String.mk l))
      let extractedEmail := emailMatch.map String.mk
      let st1 := updateCallSt st callId
        { extractedWhatsapp := extractedWhatsapp, extractedEmail := extractedEmail }
      if jsTruthyS extractedWhatsapp then
        let st2 := { st1 with
          whatsappOutbox := st1.whatsappOutbox ++ [(extractedWhatsapp.getD "", followUpMessage)] }
        if o.sendOk then
          if !o.updateSentOk then st2
          else updateCallSt st2 callId { whatsappSent := some true }
        else st2
      else st1
  else st

/-- `CallManager.completeCall`: a no-op when the call is untracked;
otherwise marks the record completed with the supplied-or-computed
duration, evicts the session, stores the summary (or its fallback), and
runs the post-call actions over the session history.  The body sits in a
try/catch: if the completed-status write throws, the catch swallows it
before the registry delete runs, so the session stays tracked and nothing
else happens; if the summary write throws, the post-call actions never
run. -/
def completeCall (st : SysState) (o : CompleteOracle) (callId : String)
    (duration : Option Nat) : SysState :=
  match lookupA st.activeCalls callId with
  | none => st
  | some activeCall =>
    if !o.updateStatusOk then st
    else
      let st1 := updateCallSt st callId
        { status := some .completed
          endTime := some o.now
          duration := some (jsOrNat duration ((o.now - activeCall.startTime) / 1000)) }
      let st2 := { st1 with activeCalls := removeA st1.activeCalls callId }
      let summary :=
        match o.summary with
        | some s => s
        | none => fallbackSummary
      if summary.isEmpty then
        processPostCallActions st2 o callId activeCall.conversationHistory
      else
        if !o.updateSummaryOk then st2
        else
          processPostCallActions
            (updateCallSt st2 callId { conversationSummary := some summary })
            o callId activeCall.conversationHistory

/-! ## Concrete scenario used by witnesses and counterexamples -/

def sampleCampaign : Campaign := { id := "camp" }

def sampleSession : ActiveCall :=
  { id := "c1", contactId := "ct", campaignId := "camp", phoneNumber := "p",
    twilioCallSid := "sid", conversationHistory := [], status := .active,
    startTime := 0 }

def sampleRecord : DbCall :=
  { id := "c1", campaignId := some "camp", status := .active, startTime := 0 }

def sampleState : SysState :=
  { activeCalls := [("c1", sampleSession)]
    db := [("c1", sampleRecord)]
    campaigns := [("camp", sampleCampaign)] }

def sampleOracle : TurnOracle := { generated := some "ok", now := 10 }

/-- Two recorded turns: the agent reply of the first exchange mentions an
office phone number; the caller gives a personal number in the second. -/
def c4StateAfterTurns : SysState :=
  (processSpeechInput
    (processSpeechInput sampleState
      { generated := some "our office number is 1800 123 4567", now := 10 }
      "c1" "hello there how are you doing").2
    { generated := some "thanks ill note that down", now := 20 }
    "c1" "reach me at 98765 43210").2

def c4Complete : CompleteOracle :=
  { summary := some "caller shared a number", sendOk := true, now := 90000 }

def c4Final : SysState := completeCall c4StateAfterTurns c4Complete "c1" (some 42)

def reconState : SysState :=
  { db := [("c1", sampleRecord)], campaigns := [("camp", sampleCampaign)] }

def reconRegistered : SysState :=
  { reconState with
      activeCalls := mapInsert reconState.activeCalls "c1" (freshSessionFromDb sampleRecord) }

def reconCompletedState : SysState :=
  { reconState with db := [("c1", { sampleRecord with status := .completed })] }

def failStatusOracle : CompleteOracle :=
  { updateStatusOk := false, summary := some "s", now := 5000 }

def synthFailOracle : TurnOracle :=
  { generated := some "ok", synthesisOk := false, now := 10 }

def saveFailOracle : TurnOracle :=
  { generated := some "ok", saveUserMsgOk := false, saveAssistantMsgOk := false,
    now := 10 }

def c8Record : DbCall := { sampleRecord with extractedWhatsapp := some "0123456789" }

def c8State : SysState := { sampleState with db := [("c1", c8Record)] }

def c9Oracle : CompleteOracle := { summary := some "s", sendOk := true, now := 5000 }

/-- The shapes of control markup the orchestrator can hand back to the
provider: a gather (keep listening) directive, or a hangup carrying either
the synthesized audio or one of the three fixed closing or apology lines. -/
def validDirective (t : Twiml) : Prop :=
  t.mode = TwimlMode.gather ∨
  (t.mode = TwimlMode.hangup ∧
    (t.opts.audioUrl.isSome = true ∨
     t.opts.text = some "Thank you for your time. Goodbye." ∨
     t.opts.text = some synthesisApologyText ∨
     t.opts.text = some "I apologize, there was a technical issue. Thank you for your time."))

/-- The same turn oracle with both message-persistence calls succeeding. -/
def withSavesOk (o : TurnOracle) : TurnOracle :=
  { o with saveUserMsgOk := true, saveAssistantMsgOk := true }

/-! ## Basic lemmas about the association-list state -/

theorem lookupA_mapInsert_self {α : Type} (m : List (String × α)) (k : String) (v : α) :
    lookupA (mapInsert m k v) k = some v := by
  simp [mapInsert, lookupA]

theorem lookupA_removeA_self {α : Type} (m : List (String × α)) (k : String) :
    lookupA (removeA m k) k = none := by
  induction m with
  | nil => simp [removeA, lookupA]
  | cons p t ih =>
    rcases p with ⟨k', v⟩
    by_cases h : k' = k
    · simpa [removeA, List.filter_cons, h] using ih
    · simpa [removeA, List.filter_cons, h, lookupA] using ih

theorem lookupA_updateCallSt_db (st : SysState) (callId : String) (p : CallPatch) :
    lookupA (updateCallSt st callId p).db callId =
      (lookupA st.db callId).map (fun r => applyPatch r p) := by
  unfold updateCallSt
  cases h : lookupA st.db callId with
  | none => simp [h]
  | some r => simp [h, lookupA_mapInsert_self]

theorem shouldEndCall_eq_true_iff (ci : ContactInfo) (n : Nat) (r u : String) :
    shouldEndCall ci n r u = true ↔
      ((jsTruthyS ci.whatsapp = true ∧ jsTruthyS ci.email = true) ∧
        (n ≥ 8 ∨ containsLC r "thank you for your time" = true ∨
          containsLC r "goodbye" = true))
      ∨ containsLC u "not interested" = true
      ∨ containsLC u "hang up" = true := by
  simp only [shouldEndCall, Bool.or_eq_true, Bool.and_eq_true, decide_eq_true_eq]
  tauto

theorem processTurnAfterMerge_mode (st : SysState) (o : TurnOracle)
    (callId utt : String) (campaign : Campaign) (hist1 : List ConversationTurn)
    (hci : ContactInfo) (reply : String)
    (hgen : o.generated = some reply) (hsyn : o.synthesisOk = true) :
    ((processTurnAfterMerge st o callId utt campaign hist1 hci).1.twiml.mode
        = TwimlMode.hangup)
      ↔ (shouldEndCall hci (hist1.length + 1) reply utt = true) := by
  unfold processTurnAfterMerge
  rw [hgen]
  simp only [hsyn, List.length_append, List.length_cons, List.length_nil]
  by_cases hend : shouldEndCall hci (hist1.length + 1) reply utt = true
  · simp [hend, generateTwiML]
  · simp [hend, generateTwiML]

/-! ## Claim theorems -/

/-- C1: on a resolvable call with an available campaign, with every
storage and generation call succeeding so that the termination policy is
reached and the synthesized directive reflects it, the directive ends the
call exactly when both merged contact fields are known (truthy) and the
post-append conversation history length reaches 8 or the reply contains a
closing phrase (case-insensitively), or the caller utterance contains an
opt-out phrase (case-insensitively); in particular opt-out wins with zero
fields known, and both-fields with history length 8 wins regardless of the
reply. -/
theorem termination_policy_end_iff
    (st : SysState) (o : TurnOracle) (callId speechText : String)
    (ac : ActiveCall) (campaign : Campaign) (reply : String)
    (hac : lookupA st.activeCalls callId = some ac)
    (hcamp : lookupA st.campaigns ac.campaignId = some campaign)
    (h1 : o.getCampaignOk = true) (h2 : o.getCallCurrentOk = true)
    (h3 : o.updateContactOk = true)
    (hgen : o.generated = some reply) (hsyn : o.synthesisOk = true) :
    (processSpeechInput st o callId speechText).1.twiml.mode = TwimlMode.hangup
      ↔ (((jsTruthyS (jsOrS ((lookupA st.db callId).bind (·.extractedWhatsapp))
              (extractContactInfo speechText).whatsapp) = true
           ∧ jsTruthyS (jsOrS ((lookupA st.db callId).bind (·.extractedEmail))
              (extractContactInfo speechText).email) = true)
          ∧ (ac.conversationHistory.length + 2 ≥ 8
             ∨ containsLC reply "thank you for your time" = true
             ∨ containsLC reply "goodbye" = true))
         ∨ containsLC speechText "not interested" = true
         ∨ containsLC speechText "hang up" = true) := by
  unfold processSpeechInput
  rw [hac]
  unfold processTurn
  simp only [h1, h2, h3, hcamp, Bool.not_true, Bool.false_eq_true, if_false]
  split
  · rw [processTurnAfterMerge_mode _ o callId speechText campaign _ _ reply hgen hsyn,
      shouldEndCall_eq_true_iff]
    simp [List.length_append]
  · rw [processTurnAfterMerge_mode _ o callId speechText campaign _ _ reply hgen hsyn,
      shouldEndCall_eq_true_iff]
    simp [List.length_append]

/-- C1 witness: an opt-out utterance with zero known fields yields the End
directive on the sample call. -/
theorem termination_policy_end_iff_witness :
    (processSpeechInput sampleState sampleOracle "c1" "I am not interested").1.twiml.mode
      = TwimlMode.hangup :=
  (termination_policy_end_iff sampleState sampleOracle "c1" "I am not interested"
      sampleSession sampleCampaign "ok" (by decide) (by decide) rfl rfl rfl rfl rfl).mpr
    (Or.inr (Or.inl (by decide)))

/-- The post-merge stage of the pipeline never writes to the durable
store. -/
theorem processTurnAfterMerge_db (st : SysState) (o : TurnOracle)
    (callId utt : String) (campaign : Campaign) (hist1 : List ConversationTurn)
    (hci : ContactInfo) :
    (processTurnAfterMerge st o callId utt campaign hist1 hci).2.db = st.db := by
  unfold processTurnAfterMerge
  rcases o.generated with _ | reply
  · rfl
  · simp only []
    repeat' split
    all_goals rfl

/-- During a turn, the durable store is either untouched or receives
exactly the merged-contact-field patch. -/
theorem processTurn_db_cases (st : SysState) (o : TurnOracle)
    (callId utt : String) (ac : ActiveCall) :
    (processTurn st o callId utt ac).2.db = st.db ∨
    (processTurn st o callId utt ac).2.db =
      (updateCallSt
        { st with
            activeCalls := mapInsert st.activeCalls callId
                             { ac with
                                 conversationHistory :=
                                   ac.conversationHistory ++ [⟨Role.user, utt, o.now⟩] } }
        callId
        { extractedWhatsapp := jsOrS ((lookupA st.db callId).bind (·.extractedWhatsapp))
                                 (extractContactInfo utt).whatsapp
          extractedEmail := jsOrS ((lookupA st.db callId).bind (·.extractedEmail))
                              (extractContactInfo utt).email }).db := by
  unfold processTurn
  cases hflag : o.getCampaignOk with
  | false =>
    left
    simp only [hflag, Bool.not_false, if_true]
  | true =>
    simp only [hflag, Bool.not_true, Bool.false_eq_true, if_false]
    cases hcamp : lookupA st.campaigns ac.campaignId with
    | none => left; rfl
    | some campaign =>
      simp only []
      cases hcur : o.getCallCurrentOk with
      | false =>
        left
        simp only [hcur, Bool.not_false, if_true]
      | true =>
        simp only [hcur, Bool.not_true, Bool.false_eq_true, if_false]
        cases hfound : (jsTruthyS (extractContactInfo utt).whatsapp
            || jsTruthyS (extractContactInfo utt).email) with
        | false =>
          simp only [hfound, Bool.false_eq_true, if_false]
          left
          rw [processTurnAfterMerge_db]
        | true =>
          simp only [hfound, if_true]
          cases hupd : o.updateContactOk with
          | false =>
            left
            simp only [hupd, Bool.not_false, if_true]
          | true =>
            simp only [hupd, Bool.not_true, Bool.false_eq_true, if_false]
            right
            rw [processTurnAfterMerge_db]

/-- Field-wise consequence: a truthy persisted value survives the turn. -/
theorem processTurn_preserves_fields (st : SysState) (o : TurnOracle)
    (callId utt : String) (ac : ActiveCall) :
    (∀ v : String, v ≠ "" →
        (lookupA st.db callId).bind (fun r => r.extractedWhatsapp) = some v →
        (lookupA (processTurn st o callId utt ac).2.db callId).bind
          (fun r => r.extractedWhatsapp) = some v)
    ∧ (∀ v : String, v ≠ "" →
        (lookupA st.db callId).bind (fun r => r.extractedEmail) = some v →
        (lookupA (processTurn st o callId utt ac).2.db callId).bind
          (fun r => r.extractedEmail) = some v) := by
  rcases processTurn_db_cases st o callId utt ac with hdb | hdb <;>
    constructor <;> intro v hv h
  · rw [hdb]; exact h
  · rw [hdb]; exact h
  · rw [hdb, lookupA_updateCallSt_db]
    have hvb : v.isEmpty = false :=
      Bool.eq_false_iff.mpr (fun hh => hv ((String.isEmpty_iff v).mp hh))
    cases hrec : lookupA st.db callId with
    | none => rw [hrec] at h; simp at h
    | some rec =>
      rw [hrec] at h
      simp only [Option.some_bind] at h
      simp [hrec, applyPatch, jsOrS, jsTruthyS, h, hvb]
  · rw [hdb, lookupA_updateCallSt_db]
    have hvb : v.isEmpty = false :=
      Bool.eq_false_iff.mpr (fun hh => hv ((String.isEmpty_iff v).mp hh))
    cases hrec : lookupA st.db callId with
    | none => rw [hrec] at h; simp at h
    | some rec =>
      rw [hrec] at h
      simp only [Option.some_bind] at h
      simp [hrec, applyPatch, jsOrS, jsTruthyS, h, hvb]

/-- C4 counterexample: with two recorded turns, a phone-like value
persisted from the second caller utterance is overwritten at completion by
the post-call extraction, which re-scans the whole transcript (including
the agent turn mentioning the office number) and writes its own
digits-only first match. -/
theorem post_call_extraction_overwrites :
    ((lookupA c4StateAfterTurns.db "c1").bind (fun r => r.extractedWhatsapp)
        = some " 98765 43210")
    ∧ ((lookupA c4Final.db "c1").bind (fun r => r.extractedWhatsapp)
        = some "18001234567") := by
  constructor <;> rfl

/-- C4 amended: contact-field merge is monotonic across processed
utterances (a truthy persisted value is never cleared or replaced during
turn processing, the merge preferring the persisted value), but the
post-call extraction at completion may overwrite persisted fields. -/
theorem contact_merge_monotonic_turns (st : SysState) (o : TurnOracle)
    (callId utt : String) :
    (∀ v : String, v ≠ "" →
        (lookupA st.db callId).bind (fun r => r.extractedWhatsapp) = some v →
        (lookupA (processSpeechInput st o callId utt).2.db callId).bind
          (fun r => r.extractedWhatsapp) = some v)
    ∧ (∀ v : String, v ≠ "" →
        (lookupA st.db callId).bind (fun r => r.extractedEmail) = some v →
        (lookupA (processSpeechInput st o callId utt).2.db callId).bind
          (fun r => r.extractedEmail) = some v) := by
  unfold processSpeechInput
  cases hac : lookupA st.activeCalls callId with
  | some ac => exact processTurn_preserves_fields st o callId utt ac
  | none =>
    cases hflag : o.getCallReconstructOk with
    | false =>
      simp only [hflag, Bool.not_false, if_true]
      exact ⟨fun v _ h => h, fun v _ h => h⟩
    | true =>
      simp only [hflag, Bool.not_true, Bool.false_eq_true, if_false]
      cases hdb : lookupA st.db callId with
      | none =>
        exact ⟨fun v hv h => by simp at h, fun v hv h => by simp at h⟩
      | some dbCall =>
        simp only []
        by_cases hstat : dbCall.status = CallStatus.active
        · simp only [hstat, if_true]
          rw [← hdb]
          exact processTurn_preserves_fields
            { st with activeCalls :=
                mapInsert st.activeCalls callId (freshSessionFromDb dbCall) }
            o callId utt (freshSessionFromDb dbCall)
        · simp only [if_neg hstat]
          exact ⟨fun v hv h => by simpa [hdb] using h, fun v hv h => by simpa [hdb] using h⟩

/-- C4 amended witness: on the sample state with a persisted phone value,
a later utterance with no contact info leaves the value in place. -/
theorem contact_merge_monotonic_turns_witness :
    (lookupA (processSpeechInput
        { sampleState with db := [("c1", { sampleRecord with extractedWhatsapp := some "111 222 3333" })] }
        sampleOracle "c1" "hello again").2.db "c1").bind
      (fun r => r.extractedWhatsapp) = some "111 222 3333" :=
  (contact_merge_monotonic_turns
      { sampleState with db := [("c1", { sampleRecord with extractedWhatsapp := some "111 222 3333" })] }
      sampleOracle "c1" "hello again").1 "111 222 3333" (by decide) (by decide)


/-- The post-merge stage always leaves the call id registered: apart from
the generation-failure return, every branch reinserts the session. -/
theorem processTurnAfterMerge_registry_mem (st : SysState) (o : TurnOracle)
    (callId utt : String) (campaign : Campaign) (hist1 : List ConversationTurn)
    (hci : ContactInfo)
    (h : (lookupA st.activeCalls callId).isSome = true) :
    (lookupA (processTurnAfterMerge st o callId utt campaign hist1 hci).2.activeCalls
      callId).isSome = true := by
  unfold processTurnAfterMerge
  rcases o.generated with _ | reply
  · exact h
  · simp only []
    repeat' split
    all_goals simp [lookupA_mapInsert_self]

/-- Once the call id is present in the registry, it stays present through
the rest of the turn pipeline. -/
theorem processTurn_registry_mem (st : SysState) (o : TurnOracle)
    (callId utt : String) (ac : ActiveCall)
    (h : (lookupA st.activeCalls callId).isSome = true) :
    (lookupA (processTurn st o callId utt ac).2.activeCalls callId).isSome = true := by
  unfold processTurn
  cases hflag : o.getCampaignOk with
  | false =>
    simp only [hflag, Bool.not_false, if_true]
    exact h
  | true =>
    simp only [hflag, Bool.not_true, Bool.false_eq_true, if_false]
    cases hcamp : lookupA st.campaigns ac.campaignId with
    | none => exact h
    | some campaign =>
      simp only []
      cases hcur : o.getCallCurrentOk with
      | false =>
        simp only [hcur, Bool.not_false, if_true]
        simp [lookupA_mapInsert_self]
      | true =>
        simp only [hcur, Bool.not_true, Bool.false_eq_true, if_false]
        cases hfound : (jsTruthyS (extractContactInfo utt).whatsapp
            || jsTruthyS (extractContactInfo utt).email) with
        | false =>
          simp only [hfound, Bool.false_eq_true, if_false]
          exact processTurnAfterMerge_registry_mem _ o callId utt campaign _ _
            (by simp [lookupA_mapInsert_self])
        | true =>
          simp only [hfound, if_true]
          cases hupd : o.updateContactOk with
          | false =>
            simp only [hupd, Bool.not_false, if_true]
            simp [lookupA_mapInsert_self]
          | true =>
            simp only [hupd, Bool.not_true, Bool.false_eq_true, if_false]
            exact processTurnAfterMerge_registry_mem _ o callId utt campaign _ _
              (by simp [updateCallSt, lookupA_mapInsert_self])

/-- C2: when the call id is absent from the registry, an `active` durable
record leads to a fresh empty-history session being registered and the
turn continuing exactly as for a registered session; a missing record or a
non-active status yields the goodbye hangup with the state unchanged (no
session registered). -/
theorem reconstruction_behavior (st : SysState) (o : TurnOracle)
    (callId utt : String)
    (habs : lookupA st.activeCalls callId = none)
    (hok : o.getCallReconstructOk = true) :
    (∀ rec, lookupA st.db callId = some rec → rec.status = CallStatus.active →
        processSpeechInput st o callId utt =
          processTurn
            { st with activeCalls :=
                mapInsert st.activeCalls callId (freshSessionFromDb rec) }
            o callId utt (freshSessionFromDb rec)
        ∧ (freshSessionFromDb rec).conversationHistory = []
        ∧ (lookupA (processSpeechInput st o callId utt).2.activeCalls callId).isSome
            = true)
    ∧ (lookupA st.db callId = none →
        processSpeechInput st o callId utt = (⟨goodbyeHangup, false⟩, st))
    ∧ (∀ rec, lookupA st.db callId = some rec → rec.status ≠ CallStatus.active →
        processSpeechInput st o callId utt = (⟨goodbyeHangup, false⟩, st)) := by
  refine ⟨?_, ?_, ?_⟩
  · intro rec hdb hstat
    have hmain : processSpeechInput st o callId utt =
        processTurn
          { st with activeCalls :=
              mapInsert st.activeCalls callId (freshSessionFromDb rec) }
          o callId utt (freshSessionFromDb rec) := by
      unfold processSpeechInput
      rw [habs]
      simp only [hok, Bool.not_true, Bool.false_eq_true, if_false, hdb, hstat, if_true]
    refine ⟨hmain, rfl, ?_⟩
    rw [hmain]
    exact processTurn_registry_mem _ o callId utt _
      (by simp [lookupA_mapInsert_self])
  · intro hdb
    unfold processSpeechInput
    rw [habs]
    simp only [hok, Bool.not_true, Bool.false_eq_true, if_false, hdb]
  · intro rec hdb hstat
    unfold processSpeechInput
    rw [habs]
    simp only [hok, Bool.not_true, Bool.false_eq_true, if_false, hdb, if_neg hstat]

/-- C2 witness: the sample active record is reconstructed and processed;
the sample completed record is refused. -/
theorem reconstruction_behavior_witness :
    (processSpeechInput reconState sampleOracle "c1" "hi" =
      processTurn reconRegistered sampleOracle "c1" "hi"
        (freshSessionFromDb sampleRecord)
      ∧ (freshSessionFromDb sampleRecord).conversationHistory = []
      ∧ (lookupA (processSpeechInput reconState sampleOracle "c1" "hi").2.activeCalls
          "c1").isSome = true)
    ∧ processSpeechInput reconCompletedState sampleOracle "c1" "hi" =
        (⟨goodbyeHangup, false⟩, reconCompletedState) :=
  ⟨(reconstruction_behavior reconState sampleOracle "c1" "hi" rfl rfl).1
      sampleRecord (by decide) rfl,
   (reconstruction_behavior reconCompletedState sampleOracle "c1" "hi" rfl rfl).2.2
      { sampleRecord with status := .completed } (by decide) (by decide)⟩

/-- The post-merge stage on a failed synthesis: fixed apology hangup and a
scheduled completion. -/
theorem processTurnAfterMerge_synthfail (st : SysState) (o : TurnOracle)
    (callId utt : String) (campaign : Campaign) (hist1 : List ConversationTurn)
    (hci : ContactInfo) (reply : String)
    (hgen : o.generated = some reply) (hsyn : o.synthesisOk = false) :
    (processTurnAfterMerge st o callId utt campaign hist1 hci).1.twiml =
      generateTwiML .hangup
        { text := some synthesisApologyText
          language := some (jsOrSD campaign.language "en")
          addTypingSound := true }
    ∧ (processTurnAfterMerge st o callId utt campaign hist1 hci).2.scheduled =
        st.scheduled ++ [(callId, 1000)] := by
  unfold processTurnAfterMerge
  rw [hgen]
  simp only [hsyn, Bool.false_eq_true, if_false]
  repeat' split
  all_goals exact ⟨by trivial, by rfl⟩

/-- C3: whenever synthesis fails on a processed turn, the returned
directive is the End (hangup) directive with the fixed apology text — no
alternate voice is attempted — and completion is scheduled after the
1000 ms delay. -/
theorem synthesis_failure_apology_end (st : SysState) (o : TurnOracle)
    (callId utt : String) (ac : ActiveCall) (campaign : Campaign) (reply : String)
    (hac : lookupA st.activeCalls callId = some ac)
    (hcamp : lookupA st.campaigns ac.campaignId = some campaign)
    (h1 : o.getCampaignOk = true) (h2 : o.getCallCurrentOk = true)
    (h3 : o.updateContactOk = true)
    (hgen : o.generated = some reply) (hsyn : o.synthesisOk = false) :
    (processSpeechInput st o callId utt).1.twiml =
      generateTwiML .hangup
        { text := some synthesisApologyText
          language := some (jsOrSD campaign.language "en")
          addTypingSound := true }
    ∧ (processSpeechInput st o callId utt).2.scheduled =
        st.scheduled ++ [(callId, 1000)] := by
  unfold processSpeechInput
  rw [hac]
  unfold processTurn
  simp only [h1, h2, h3, hcamp, Bool.not_true, Bool.false_eq_true, if_false]
  split
  · exact processTurnAfterMerge_synthfail _ o callId utt campaign _ _ reply hgen hsyn
  · exact processTurnAfterMerge_synthfail _ o callId utt campaign _ _ reply hgen hsyn

/-- C3 witness: the sample call with failing synthesis gets the fixed
apology hangup and a scheduled completion. -/
theorem synthesis_failure_apology_end_witness :
    (processSpeechInput sampleState synthFailOracle "c1" "hello").1.twiml =
      generateTwiML .hangup
        { text := some synthesisApologyText
          language := some "en"
          addTypingSound := true }
    ∧ (processSpeechInput sampleState synthFailOracle "c1" "hello").2.scheduled =
        [("c1", 1000)] := by
  simpa [sampleState, sampleCampaign, jsOrSD] using
    synthesis_failure_apology_end sampleState synthFailOracle "c1" "hello"
      sampleSession sampleCampaign "ok" (by decide) (by decide) rfl rfl rfl rfl rfl

/-- Completion of an untracked call id is the identity on the state. -/
theorem completeCall_noop (st : SysState) (o : CompleteOracle) (callId : String)
    (d : Option Nat) (h : lookupA st.activeCalls callId = none) :
    completeCall st o callId d = st := by
  unfold completeCall
  rw [h]

/-- The post-call action step never touches the in-memory registry. -/
theorem processPostCallActions_activeCalls (st : SysState) (o : CompleteOracle)
    (callId : String) (hist : List ConversationTurn) :
    (processPostCallActions st o callId hist).activeCalls = st.activeCalls := by
  unfold processPostCallActions updateCallSt
  simp only []
  repeat' split
  all_goals rfl

/-- C5 amended: completing a call id that is not tracked in the registry
is a no-op (no record update, no summary, no follow-up) for every oracle
outcome, and — provided the first completion writes the completed status
(the write does not throw), so that the session is evicted — completing
twice in sequence equals completing once.  When that first write throws,
the swallowed exception leaves the session tracked and a second
invocation acts as a retry, not a duplicate. -/
theorem completeCall_idempotent (st : SysState) (o o2 : CompleteOracle)
    (callId : String) (d d2 : Option Nat) :
    (lookupA st.activeCalls callId = none → completeCall st o callId d = st)
    ∧ (o.updateStatusOk = true →
        completeCall (completeCall st o callId d) o2 callId d2 =
          completeCall st o callId d) := by
  refine ⟨completeCall_noop st o callId d, ?_⟩
  intro hok
  cases h : lookupA st.activeCalls callId with
  | none =>
    rw [completeCall_noop st o callId d h, completeCall_noop st o2 callId d2 h]
  | some ac =>
    have hgone : lookupA (completeCall st o callId d).activeCalls callId = none := by
      unfold completeCall
      rw [h]
      simp only [hok, Bool.not_true, Bool.false_eq_true, if_false]
      split
      · rw [processPostCallActions_activeCalls]
        exact lookupA_removeA_self _ _
      · split
        · exact lookupA_removeA_self _ _
        · rw [processPostCallActions_activeCalls]
          exact lookupA_removeA_self _ _
    exact completeCall_noop _ o2 callId d2 hgone

/-- C5 counterexample: when the first completion invocation hits a
throwing status write, the swallowed exception leaves the call tracked
and the state untouched, so a second (now succeeding) invocation performs
the full completion — invoking completion twice does not equal invoking
it once. -/
theorem completion_not_idempotent_on_storage_failure :
    completeCall sampleState failStatusOracle "c1" (some 7) = sampleState
    ∧ completeCall (completeCall sampleState failStatusOracle "c1" (some 7))
        c9Oracle "c1" (some 7) ≠
      completeCall sampleState failStatusOracle "c1" (some 7) := by
  refine ⟨rfl, ?_⟩
  decide

/-- C5 witness: completing an untracked id is a no-op, and completing the
sample tracked call twice equals completing it once. -/
theorem completeCall_idempotent_witness :
    completeCall reconState c4Complete "c1" (some 7) = reconState
    ∧ completeCall (completeCall sampleState c4Complete "c1" (some 7))
        c4Complete "c1" (some 7) =
      completeCall sampleState c4Complete "c1" (some 7) :=
  ⟨(completeCall_idempotent reconState c4Complete c4Complete "c1" (some 7) (some 7)).1
      rfl,
   (completeCall_idempotent sampleState c4Complete c4Complete "c1" (some 7) (some 7)).2
      rfl⟩

/-- Every directive built by the post-merge stage is valid markup. -/
theorem processTurnAfterMerge_valid (st : SysState) (o : TurnOracle)
    (callId utt : String) (campaign : Campaign) (hist1 : List ConversationTurn)
    (hci : ContactInfo) :
    validDirective (processTurnAfterMerge st o callId utt campaign hist1 hci).1.twiml := by
  unfold processTurnAfterMerge
  rcases o.generated with _ | reply
  · exact Or.inr ⟨rfl, Or.inr (Or.inr (Or.inr rfl))⟩
  · simp only []
    repeat' split
    all_goals first
      | exact Or.inl rfl
      | exact Or.inr ⟨rfl, Or.inl rfl⟩
      | exact Or.inr ⟨rfl, Or.inr (Or.inl rfl)⟩
      | exact Or.inr ⟨rfl, Or.inr (Or.inr (Or.inl rfl))⟩
      | exact Or.inr ⟨rfl, Or.inr (Or.inr (Or.inr rfl))⟩

/-- Every directive built by the turn pipeline is valid markup. -/
theorem processTurn_valid (st : SysState) (o : TurnOracle)
    (callId utt : String) (ac : ActiveCall) :
    validDirective (processTurn st o callId utt ac).1.twiml := by
  unfold processTurn
  cases hflag : o.getCampaignOk with
  | false =>
    simp only [hflag, Bool.not_false, if_true]
    exact Or.inr ⟨rfl, Or.inr (Or.inr (Or.inr rfl))⟩
  | true =>
    simp only [hflag, Bool.not_true, Bool.false_eq_true, if_false]
    cases hcamp : lookupA st.campaigns ac.campaignId with
    | none => exact Or.inr ⟨rfl, Or.inr (Or.inl rfl)⟩
    | some campaign =>
      simp only []
      cases hcur : o.getCallCurrentOk with
      | false =>
        simp only [hcur, Bool.not_false, if_true]
        exact Or.inr ⟨rfl, Or.inr (Or.inr (Or.inr rfl))⟩
      | true =>
        simp only [hcur, Bool.not_true, Bool.false_eq_true, if_false]
        cases hfound : (jsTruthyS (extractContactInfo utt).whatsapp
            || jsTruthyS (extractContactInfo utt).email) with
        | false =>
          simp only [hfound, Bool.false_eq_true, if_false]
          exact processTurnAfterMerge_valid _ o callId utt campaign _ _
        | true =>
          simp only [hfound, if_true]
          cases hupd : o.updateContactOk with
          | false =>
            simp only [hupd, Bool.not_false, if_true]
            exact Or.inr ⟨rfl, Or.inr (Or.inr (Or.inr rfl))⟩
          | true =>
            simp only [hupd, Bool.not_true, Bool.false_eq_true, if_false]
            exact processTurnAfterMerge_valid _ o callId utt campaign _ _

/-- C6: for every state, oracle outcome and input, processSpeechInput
returns valid control markup: a gather directive, or a hangup carrying the
synthesized audio or one of the fixed closing or apology lines; no failure
of a collaborator escapes to the caller. -/
theorem processSpeechInput_valid_markup (st : SysState) (o : TurnOracle)
    (callId utt : String) :
    validDirective (processSpeechInput st o callId utt).1.twiml := by
  unfold processSpeechInput
  cases hac : lookupA st.activeCalls callId with
  | some ac => exact processTurn_valid st o callId utt ac
  | none =>
    cases hflag : o.getCallReconstructOk with
    | false =>
      simp only [hflag, Bool.not_false, if_true]
      exact Or.inr ⟨rfl, Or.inr (Or.inr (Or.inr rfl))⟩
    | true =>
      simp only [hflag, Bool.not_true, Bool.false_eq_true, if_false]
      cases hdb : lookupA st.db callId with
      | none => exact Or.inr ⟨rfl, Or.inr (Or.inl rfl)⟩
      | some dbCall =>
        simp only []
        by_cases hstat : dbCall.status = CallStatus.active
        · simp only [hstat, if_true]
          exact processTurn_valid _ o callId utt _
        · simp only [if_neg hstat]
          exact Or.inr ⟨rfl, Or.inr (Or.inl rfl)⟩

/-- The outcome of the two message-persistence calls affects only the
persisted message log: result and every other state component agree with
the all-successful run. -/
theorem processTurnAfterMerge_saves_invariant (st : SysState) (o : TurnOracle)
    (callId utt : String) (campaign : Campaign) (hist1 : List ConversationTurn)
    (hci : ContactInfo) :
    (processTurnAfterMerge st (withSavesOk o) callId utt campaign hist1 hci).1 =
      (processTurnAfterMerge st o callId utt campaign hist1 hci).1
    ∧ (processTurnAfterMerge st (withSavesOk o) callId utt campaign hist1 hci).2.activeCalls =
        (processTurnAfterMerge st o callId utt campaign hist1 hci).2.activeCalls
    ∧ (processTurnAfterMerge st (withSavesOk o) callId utt campaign hist1 hci).2.db =
        (processTurnAfterMerge st o callId utt campaign hist1 hci).2.db
    ∧ (processTurnAfterMerge st (withSavesOk o) callId utt campaign hist1 hci).2.updates =
        (processTurnAfterMerge st o callId utt campaign hist1 hci).2.updates
    ∧ (processTurnAfterMerge st (withSavesOk o) callId utt campaign hist1 hci).2.scheduled =
        (processTurnAfterMerge st o callId utt campaign hist1 hci).2.scheduled
    ∧ (processTurnAfterMerge st (withSavesOk o) callId utt campaign hist1 hci).2.whatsappOutbox =
        (processTurnAfterMerge st o callId utt campaign hist1 hci).2.whatsappOutbox := by
  unfold processTurnAfterMerge
  simp only [withSavesOk]
  rcases hg : o.generated with _ | reply
  · refine ⟨?_, ?_, ?_, ?_, ?_, ?_⟩ <;> trivial
  · simp only []
    repeat' split
    all_goals refine ⟨?_, ?_, ?_, ?_, ?_, ?_⟩ <;> trivial

/-- After a successful generation, the registered session carries the
appended reply. -/
theorem processTurnAfterMerge_registry_value (st : SysState) (o : TurnOracle)
    (callId utt : String) (campaign : Campaign) (hist1 : List ConversationTurn)
    (hci : ContactInfo) (reply : String) (a : ActiveCall)
    (hgen : o.generated = some reply)
    (hreg : lookupA st.activeCalls callId = some a) :
    lookupA (processTurnAfterMerge st o callId utt campaign hist1 hci).2.activeCalls
        callId =
      some { a with conversationHistory :=
          hist1 ++ [⟨Role.assistant, reply, o.now⟩] } := by
  unfold processTurnAfterMerge
  rw [hgen]
  simp only [hreg]
  repeat' split
  all_goals simp [lookupA_mapInsert_self]

/-- Saves invariance lifted to the whole turn pipeline. -/
theorem processTurn_saves_invariant (st : SysState) (o : TurnOracle)
    (callId utt : String) (ac : ActiveCall) :
    (processTurn st (withSavesOk o) callId utt ac).1 =
      (processTurn st o callId utt ac).1
    ∧ (processTurn st (withSavesOk o) callId utt ac).2.activeCalls =
        (processTurn st o callId utt ac).2.activeCalls
    ∧ (processTurn st (withSavesOk o) callId utt ac).2.db =
        (processTurn st o callId utt ac).2.db
    ∧ (processTurn st (withSavesOk o) callId utt ac).2.updates =
        (processTurn st o callId utt ac).2.updates
    ∧ (processTurn st (withSavesOk o) callId utt ac).2.scheduled =
        (processTurn st o callId utt ac).2.scheduled
    ∧ (processTurn st (withSavesOk o) callId utt ac).2.whatsappOutbox =
        (processTurn st o callId utt ac).2.whatsappOutbox := by
  unfold processTurn
  simp only [withSavesOk]
  cases hflag : o.getCampaignOk with
  | false =>
    simp only [hflag, Bool.not_false, if_true]
    refine ⟨?_, ?_, ?_, ?_, ?_, ?_⟩ <;> trivial
  | true =>
    simp only [hflag, Bool.not_true, Bool.false_eq_true, if_false]
    cases hcamp : lookupA st.campaigns ac.campaignId with
    | none => refine ⟨?_, ?_, ?_, ?_, ?_, ?_⟩ <;> trivial
    | some campaign =>
      simp only []
      cases hcur : o.getCallCurrentOk with
      | false =>
        simp only [hcur, Bool.not_false, if_true]
        refine ⟨?_, ?_, ?_, ?_, ?_, ?_⟩ <;> trivial
      | true =>
        simp only [hcur, Bool.not_true, Bool.false_eq_true, if_false]
        cases hfound : (jsTruthyS (extractContactInfo utt).whatsapp
            || jsTruthyS (extractContactInfo utt).email) with
        | false =>
          simp only [hfound, Bool.false_eq_true, if_false]
          exact processTurnAfterMerge_saves_invariant _ o callId utt campaign _ _
        | true =>
          simp only [hfound, if_true]
          cases hupd : o.updateContactOk with
          | false =>
            simp only [hupd, Bool.not_false, if_true]
            refine ⟨?_, ?_, ?_, ?_, ?_, ?_⟩ <;> trivial
          | true =>
            simp only [hupd, Bool.not_true, Bool.false_eq_true, if_false]
            exact processTurnAfterMerge_saves_invariant _ o callId utt campaign _ _

/-- C7: a failure persisting the caller or reply turn is swallowed — the
returned directive and every state component except the persisted message
log agree with the all-successful run — and the in-memory session still
receives both turns and proceeds through termination evaluation, synthesis
and directive construction. -/
theorem persistence_failure_swallowed (st : SysState) (o : TurnOracle)
    (callId utt : String) :
    ((processSpeechInput st (withSavesOk o) callId utt).1 =
        (processSpeechInput st o callId utt).1
      ∧ (processSpeechInput st (withSavesOk o) callId utt).2.activeCalls =
          (processSpeechInput st o callId utt).2.activeCalls
      ∧ (processSpeechInput st (withSavesOk o) callId utt).2.db =
          (processSpeechInput st o callId utt).2.db
      ∧ (processSpeechInput st (withSavesOk o) callId utt).2.updates =
          (processSpeechInput st o callId utt).2.updates
      ∧ (processSpeechInput st (withSavesOk o) callId utt).2.scheduled =
          (processSpeechInput st o callId utt).2.scheduled
      ∧ (processSpeechInput st (withSavesOk o) callId utt).2.whatsappOutbox =
          (processSpeechInput st o callId utt).2.whatsappOutbox)
    ∧ (∀ (ac : ActiveCall) (campaign : Campaign) (reply : String),
        lookupA st.activeCalls callId = some ac →
        lookupA st.campaigns ac.campaignId = some campaign →
        o.getCampaignOk = true → o.getCallCurrentOk = true →
        o.updateContactOk = true → o.generated = some reply →
        lookupA (processSpeechInput st o callId utt).2.activeCalls callId =
          some { ac with conversationHistory :=
              ac.conversationHistory ++
                [⟨Role.user, utt, o.now⟩, ⟨Role.assistant, reply, o.now⟩] }) := by
  constructor
  · unfold processSpeechInput
    simp only [withSavesOk]
    cases hac : lookupA st.activeCalls callId with
    | some ac =>
      have h := processTurn_saves_invariant st o callId utt ac
      simpa [withSavesOk] using h
    | none =>
      cases hflag : o.getCallReconstructOk with
      | false =>
        simp only [hflag, Bool.not_false, if_true]
        refine ⟨?_, ?_, ?_, ?_, ?_, ?_⟩ <;> trivial
      | true =>
        simp only [hflag, Bool.not_true, Bool.false_eq_true, if_false]
        cases hdb : lookupA st.db callId with
        | none => refine ⟨?_, ?_, ?_, ?_, ?_, ?_⟩ <;> trivial
        | some dbCall =>
          simp only []
          by_cases hstat : dbCall.status = CallStatus.active
          · simp only [hstat, if_true]
            have h := processTurn_saves_invariant
              { st with activeCalls :=
                  mapInsert st.activeCalls callId (freshSessionFromDb dbCall) }
              o callId utt (freshSessionFromDb dbCall)
            simpa [withSavesOk] using h
          · simp only [if_neg hstat]
            refine ⟨?_, ?_, ?_, ?_, ?_, ?_⟩ <;> trivial
  · intro ac campaign reply hac hcamp h1 h2 h3 hgen
    unfold processSpeechInput
    rw [hac]
    unfold processTurn
    simp only [h1, h2, h3, hcamp, Bool.not_true, Bool.false_eq_true, if_false]
    split
    · rw [processTurnAfterMerge_registry_value _ o callId utt campaign _ _ reply
        ({ ac with conversationHistory :=
            ac.conversationHistory ++ [⟨Role.user, utt, o.now⟩] }) hgen
        (by simp [updateCallSt, lookupA_mapInsert_self])]
      simp
    · rw [processTurnAfterMerge_registry_value _ o callId utt campaign _ _ reply
        ({ ac with conversationHistory :=
            ac.conversationHistory ++ [⟨Role.user, utt, o.now⟩] }) hgen
        (by simp [lookupA_mapInsert_self])]
      simp

/-- C7 witness: with both persistence calls failing on the sample call,
the directive matches the all-successful run and the session holds both
turns. -/
theorem persistence_failure_swallowed_witness :
    (processSpeechInput sampleState (withSavesOk saveFailOracle) "c1" "hello").1 =
      (processSpeechInput sampleState saveFailOracle "c1" "hello").1
    ∧ lookupA (processSpeechInput sampleState saveFailOracle "c1" "hello").2.activeCalls
        "c1" =
      some { sampleSession with conversationHistory :=
          [⟨Role.user, "hello", 10⟩, ⟨Role.assistant, "ok", 10⟩] } := by
  refine ⟨(persistence_failure_swallowed sampleState saveFailOracle "c1" "hello").1.1, ?_⟩
  have h := (persistence_failure_swallowed sampleState saveFailOracle "c1" "hello").2
    sampleSession sampleCampaign "ok" (by decide) (by decide) rfl rfl rfl rfl
  simpa [sampleSession] using h

/-- A phone match of the anchored pattern is never the empty token. -/
theorem phoneMatchAt_ne_nil (l : List Char) (m : List Char)
    (h : phoneMatchAt l = some m) : m ≠ [] := by
  unfold phoneMatchAt at h
  split at h
  · simp only [] at h
    split at h
    · cases h; simp
    · cases h
  · rename_i l' hne
    simp only [] at h
    split at h
    · rename_i hlen
      cases h
      intro hnil
      rw [hnil] at hlen
      simp at hlen
    · cases h

/-- A leftmost phone match is never the empty token. -/
theorem findPhoneMatch_ne_nil (l : List Char) (m : List Char)
    (h : findPhoneMatch l = some m) : m ≠ [] := by
  induction l with
  | nil => simp [findPhoneMatch] at h
  | cons c t ih =>
    unfold findPhoneMatch at h
    cases hm : phoneMatchAt (c :: t) with
    | some m' =>
      rw [hm] at h
      cases h
      exact phoneMatchAt_ne_nil _ _ hm
    | none =>
      rw [hm] at h
      exact ih h

/-- An email match of the anchored pattern is never the empty token. -/
theorem emailMatchAt_ne_nil (l : List Char) (m : List Char)
    (h : emailMatchAt l = some m) : m ≠ [] := by
  unfold emailMatchAt at h
  simp only [] at h
  split at h
  · cases h
  · split at h
    · split at h
      · cases h
        simp
      · cases h
    · cases h

/-- A leftmost email match is never the empty token. -/
theorem findEmailMatch_ne_nil (l : List Char) (m : List Char)
    (h : findEmailMatch l = some m) : m ≠ [] := by
  induction l with
  | nil => simp [findEmailMatch] at h
  | cons c t ih =>
    unfold findEmailMatch at h
    cases hm : emailMatchAt (c :: t) with
    | some m' =>
      rw [hm] at h
      cases h
      exact emailMatchAt_ne_nil _ _ hm
    | none =>
      rw [hm] at h
      exact ih h

theorem string_mk_ne_empty (m : List Char) (hm : m ≠ []) :
    (String.mk m).isEmpty = false := by
  apply Bool.eq_false_iff.mpr
  intro hh
  have h2 := (String.isEmpty_iff (String.mk m)).mp hh
  apply hm
  have h3 := congrArg String.data h2
  simpa using h3

/-- The extractor never yields the falsy non-null phone value: either no
phone, or a truthy token. -/
theorem extractContactInfo_whatsapp_cases (s : String) :
    (extractContactInfo s).whatsapp = none ∨
    jsTruthyS (extractContactInfo s).whatsapp = true := by
  unfold extractContactInfo
  cases hm : findPhoneMatch s.data with
  | none => left; simp
  | some m =>
    right
    simp only [Option.map_some]
    simp [jsTruthyS, string_mk_ne_empty m (findPhoneMatch_ne_nil _ _ hm)]

/-- The extractor never yields the falsy non-null email value. -/
theorem extractContactInfo_email_cases (s : String) :
    (extractContactInfo s).email = none ∨
    jsTruthyS (extractContactInfo s).email = true := by
  unfold extractContactInfo
  cases hm : findEmailMatch s.data with
  | none => left; simp
  | some m =>
    right
    simp only [Option.map_some]
    simp [jsTruthyS, string_mk_ne_empty m (findEmailMatch_ne_nil _ _ hm)]

/-- The post-merge stage issues no storage update. -/
theorem processTurnAfterMerge_updates (st : SysState) (o : TurnOracle)
    (callId utt : String) (campaign : Campaign) (hist1 : List ConversationTurn)
    (hci : ContactInfo) :
    (processTurnAfterMerge st o callId utt campaign hist1 hci).2.updates =
      st.updates := by
  unfold processTurnAfterMerge
  rcases o.generated with _ | reply
  · rfl
  · simp only []
    repeat' split
    all_goals rfl

theorem append_singleton_ne {α : Type} (l : List α) (x : α) : l ++ [x] ≠ l := by
  intro h
  have := congrArg List.length h
  simp at this

/-- Writing back the merged value leaves a field unchanged when the newly
found value is absent or the previous value was already truthy. -/
theorem patchField_keep (prev found : Option String)
    (hfc : found = none ∨ jsTruthyS found = true)
    (hnew : jsTruthyS found = true → jsTruthyS prev = true) :
    (match jsOrS prev found with
     | some w => some w
     | none => prev) = prev := by
  rcases hfc with hf | hf
  · subst hf
    unfold jsOrS
    by_cases hp : jsTruthyS prev = true
    · simp only [hp, if_true]
      cases prev with
      | none => simp [jsTruthyS] at hp
      | some w => rfl
    · simp only [if_neg hp]
  · have hp := hnew hf
    unfold jsOrS
    simp only [hp, if_true]
    cases prev with
    | none => simp [jsTruthyS] at hp
    | some w => rfl

/-- C8 counterexample: on a call whose phone field is already set, an
utterance that mentions another phone number makes the turn issue a
contact-field persistence call even though neither field is new (the
phone was found but already set, and no email was found). -/
theorem contact_persist_though_nothing_new :
    jsTruthyS ((lookupA c8State.db "c1").bind (fun r => r.extractedWhatsapp)) = true
    ∧ jsTruthyS (extractContactInfo "number is 98765 43210 again").whatsapp = true
    ∧ (extractContactInfo "number is 98765 43210 again").email = none
    ∧ ((lookupA c8State.db "c1").bind (fun r => r.extractedEmail)) = none
    ∧ (processSpeechInput c8State sampleOracle "c1"
        "number is 98765 43210 again").2.updates ≠ c8State.updates := by
  refine ⟨rfl, rfl, rfl, rfl, ?_⟩
  decide

/-- C8 amended: the turn issues the contact-field persistence call exactly
when the latest utterance yields a (truthy) value for either field — even
when that field is already set — and the durable extracted-field state is
left unchanged whenever neither found field is new (each found field was
already truthy before the turn). -/
theorem contact_persist_iff_found (st : SysState) (o : TurnOracle)
    (callId utt : String) (ac : ActiveCall) (campaign : Campaign)
    (hac : lookupA st.activeCalls callId = some ac)
    (hcamp : lookupA st.campaigns ac.campaignId = some campaign)
    (h1 : o.getCampaignOk = true) (h2 : o.getCallCurrentOk = true)
    (h3 : o.updateContactOk = true) :
    ((processSpeechInput st o callId utt).2.updates ≠ st.updates ↔
      (jsTruthyS (extractContactInfo utt).whatsapp = true ∨
       jsTruthyS (extractContactInfo utt).email = true))
    ∧ (((jsTruthyS (extractContactInfo utt).whatsapp = true →
          jsTruthyS ((lookupA st.db callId).bind (·.extractedWhatsapp)) = true)
        ∧ (jsTruthyS (extractContactInfo utt).email = true →
          jsTruthyS ((lookupA st.db callId).bind (·.extractedEmail)) = true)) →
        (lookupA (processSpeechInput st o callId utt).2.db callId).map
            (fun r => (r.extractedWhatsapp, r.extractedEmail)) =
          (lookupA st.db callId).map
            (fun r => (r.extractedWhatsapp, r.extractedEmail))) := by
  unfold processSpeechInput
  rw [hac]
  unfold processTurn
  simp only [h1, h2, h3, hcamp, Bool.not_true, Bool.false_eq_true, if_false]
  cases hfound : (jsTruthyS (extractContactInfo utt).whatsapp
      || jsTruthyS (extractContactInfo utt).email) with
  | false =>
    simp only [hfound, Bool.false_eq_true, if_false]
    have hparts := Bool.or_eq_false_iff.mp hfound
    constructor
    · rw [processTurnAfterMerge_updates]
      simp [hparts.1, hparts.2]
    · intro _
      rw [processTurnAfterMerge_db]
    -- the db is untouched, so the projection is unchanged
  | true =>
    simp only [hfound, if_true]
    constructor
    · rw [processTurnAfterMerge_updates]
      constructor
      · intro _
        simpa using hfound
      · intro _
        exact append_singleton_ne _ _
    · intro hnew
      rw [processTurnAfterMerge_db, lookupA_updateCallSt_db]
      cases hrec : lookupA st.db callId with
      | none => simp [hrec]
      | some rec =>
        simp only [hrec, Option.map_some, Option.some_bind]
        have hnw : jsTruthyS (extractContactInfo utt).whatsapp = true →
            jsTruthyS rec.extractedWhatsapp = true := by
          intro hx
          have := hnew.1 hx
          simpa [hrec] using this
        have hne2 : jsTruthyS (extractContactInfo utt).email = true →
            jsTruthyS rec.extractedEmail = true := by
          intro hx
          have := hnew.2 hx
          simpa [hrec] using this
        simp only [Option.map_some', applyPatch, Option.some.injEq, Prod.mk.injEq]
        exact ⟨patchField_keep rec.extractedWhatsapp (extractContactInfo utt).whatsapp
            (extractContactInfo_whatsapp_cases utt) hnw,
          patchField_keep rec.extractedEmail (extractContactInfo utt).email
            (extractContactInfo_email_cases utt) hne2⟩

/-- C8 amended witness: an utterance with no contact info issues no
persistence call and leaves the extracted-field state unchanged. -/
theorem contact_persist_iff_found_witness :
    (processSpeechInput sampleState sampleOracle "c1" "hello").2.updates =
      sampleState.updates
    ∧ (lookupA (processSpeechInput sampleState sampleOracle "c1" "hello").2.db
          "c1").map (fun r => (r.extractedWhatsapp, r.extractedEmail)) =
        (lookupA sampleState.db "c1").map
          (fun r => (r.extractedWhatsapp, r.extractedEmail)) := by
  have h := contact_persist_iff_found sampleState sampleOracle "c1" "hello"
    sampleSession sampleCampaign (by decide) (by decide) rfl rfl rfl
  refine ⟨?_, h.2 (by decide)⟩
  by_contra hne
  have hd := h.1.mp hne
  rcases hd with t | t <;> revert t <;> decide

/-- The post-call actions never change the stored duration. -/
theorem processPostCallActions_duration (st : SysState) (o : CompleteOracle)
    (callId : String) (hist : List ConversationTurn) :
    (lookupA (processPostCallActions st o callId hist).db callId).bind
        (fun r => r.duration) =
      (lookupA st.db callId).bind (fun r => r.duration) := by
  unfold processPostCallActions
  simp only []
  repeat' split
  all_goals cases hr : lookupA st.db callId <;>
    simp [lookupA_updateCallSt_db, applyPatch, hr]

/-- C9 counterexample: a supplied duration of 0 is not used — the record
receives the wall-clock value (5 seconds) instead of the supplied 0. -/
theorem duration_zero_recomputed :
    (lookupA (completeCall sampleState c9Oracle "c1" (some 0)).db "c1").bind
        (fun r => r.duration) ≠ some 0
    ∧ (lookupA (completeCall sampleState c9Oracle "c1" (some 0)).db "c1").bind
        (fun r => r.duration) = some 5 := by
  refine ⟨?_, rfl⟩
  decide

/-- C9 amended: the completed record receives the supplied duration
whenever one is supplied and nonzero; when the duration is absent or zero
(zero is falsy), the wall-clock elapsed seconds are stored instead. -/
theorem completeCall_duration_rule (st : SysState) (o : CompleteOracle)
    (callId : String) (d : Option Nat) (ac : ActiveCall) (rec : DbCall)
    (hac : lookupA st.activeCalls callId = some ac)
    (hdb : lookupA st.db callId = some rec)
    (hst : o.updateStatusOk = true) :
    (∀ n, d = some n → n ≠ 0 →
      (lookupA (completeCall st o callId d).db callId).bind (fun r => r.duration) =
        some n)
    ∧ ((d = none ∨ d = some 0) →
      (lookupA (completeCall st o callId d).db callId).bind (fun r => r.duration) =
        some ((o.now - ac.startTime) / 1000)) := by
  have hbase : (lookupA (completeCall st o callId d).db callId).bind
      (fun r => r.duration) = some (jsOrNat d ((o.now - ac.startTime) / 1000)) := by
    unfold completeCall
    rw [hac]
    simp only [hst, Bool.not_true, Bool.false_eq_true, if_false]
    split
    · rw [processPostCallActions_duration]
      simp [lookupA_updateCallSt_db, hdb, applyPatch]
    · split
      · simp [lookupA_updateCallSt_db, hdb, applyPatch]
      · rw [processPostCallActions_duration]
        simp [lookupA_updateCallSt_db, hdb, applyPatch]
  constructor
  · intro n hdn hn
    rw [hbase, hdn]
    simp [jsOrNat, hn]
  · intro hd
    rcases hd with hd | hd <;> rw [hbase, hd] <;> simp [jsOrNat]

/-- C9 amended witness: a supplied nonzero duration is stored as is; an
absent duration falls back to the wall-clock value. -/
theorem completeCall_duration_rule_witness :
    (lookupA (completeCall sampleState c9Oracle "c1" (some 7)).db "c1").bind
        (fun r => r.duration) = some 7
    ∧ (lookupA (completeCall sampleState c9Oracle "c1" none).db "c1").bind
        (fun r => r.duration) = some 5 := by
  constructor
  · exact (completeCall_duration_rule sampleState c9Oracle "c1" (some 7)
      sampleSession sampleRecord (by decide) (by decide) rfl).1 7 rfl (by decide)
  · have h := (completeCall_duration_rule sampleState c9Oracle "c1" none
      sampleSession sampleRecord (by decide) (by decide) rfl).2 (Or.inl rfl)
    simpa [sampleSession] using h

/-- After the merge stage, the registered session extends the running
history. -/
theorem processTurnAfterMerge_registry_extends (st : SysState) (o : TurnOracle)
    (callId utt : String) (campaign : Campaign) (hist1 : List ConversationTurn)
    (hci : ContactInfo) (a : ActiveCall)
    (hreg : lookupA st.activeCalls callId = some a)
    (ha : a.conversationHistory = hist1) :
    ∃ ac2 rest,
      lookupA (processTurnAfterMerge st o callId utt campaign hist1 hci).2.activeCalls
          callId = some ac2
      ∧ ac2.conversationHistory = hist1 ++ rest := by
  rcases hg : o.generated with _ | reply
  · have h2 : (processTurnAfterMerge st o callId utt campaign hist1 hci).2 = st := by
      unfold processTurnAfterMerge
      rw [hg]
    exact ⟨a, [], by rw [h2]; exact hreg, by simp [ha]⟩
  · exact ⟨_, [⟨Role.assistant, reply, o.now⟩],
      processTurnAfterMerge_registry_value st o callId utt campaign hist1 hci reply a
        hg hreg, rfl⟩

/-- Through the whole turn pipeline, the registered session only ever
extends its history. -/
theorem processTurn_registry_extends (st : SysState) (o : TurnOracle)
    (callId utt : String) (ac : ActiveCall)
    (hreg : lookupA st.activeCalls callId = some ac) :
    ∃ ac2 rest,
      lookupA (processTurn st o callId utt ac).2.activeCalls callId = some ac2
      ∧ ac2.conversationHistory = ac.conversationHistory ++ rest := by
  unfold processTurn
  cases hflag : o.getCampaignOk with
  | false =>
    simp only [hflag, Bool.not_false, if_true]
    exact ⟨ac, [], hreg, by simp⟩
  | true =>
    simp only [hflag, Bool.not_true, Bool.false_eq_true, if_false]
    cases hcamp : lookupA st.campaigns ac.campaignId with
    | none => exact ⟨ac, [], hreg, by simp⟩
    | some campaign =>
      simp only []
      cases hcur : o.getCallCurrentOk with
      | false =>
        simp only [hcur, Bool.not_false, if_true]
        exact ⟨_, [⟨Role.user, utt, o.now⟩], lookupA_mapInsert_self _ _ _, rfl⟩
      | true =>
        simp only [hcur, Bool.not_true, Bool.false_eq_true, if_false]
        cases hfound : (jsTruthyS (extractContactInfo utt).whatsapp
            || jsTruthyS (extractContactInfo utt).email) with
        | false =>
          simp only [hfound, Bool.false_eq_true, if_false]
          obtain ⟨ac2, rest, hl, hh⟩ := processTurnAfterMerge_registry_extends { st with activeCalls := mapInsert st.activeCalls callId { ac with conversationHistory := ac.conversationHistory ++ [⟨Role.user, utt, o.now⟩] } } o callId utt campaign (ac.conversationHistory ++ [⟨Role.user, utt, o.now⟩]) { whatsapp := jsOrS ((lookupA st.db callId).bind (·.extractedWhatsapp)) (extractContactInfo utt).whatsapp, email := jsOrS ((lookupA st.db callId).bind (·.extractedEmail)) (extractContactInfo utt).email } { ac with conversationHistory := ac.conversationHistory ++ [⟨Role.user, utt, o.now⟩] } (lookupA_mapInsert_self _ _ _) rfl
          refine ⟨ac2, ⟨Role.user, utt, o.now⟩ :: rest, ?_, ?_⟩
          · exact hl
          · rw [hh]
            simp
        | true =>
          simp only [hfound, if_true]
          cases hupd : o.updateContactOk with
          | false =>
            simp only [hupd, Bool.not_false, if_true]
            exact ⟨_, [⟨Role.user, utt, o.now⟩], lookupA_mapInsert_self _ _ _, rfl⟩
          | true =>
            simp only [hupd, Bool.not_true, Bool.false_eq_true, if_false]
            obtain ⟨ac2, rest, hl, hh⟩ := processTurnAfterMerge_registry_extends (updateCallSt { st with activeCalls := mapInsert st.activeCalls callId { ac with conversationHistory := ac.conversationHistory ++ [⟨Role.user, utt, o.now⟩] } } callId { extractedWhatsapp := jsOrS ((lookupA st.db callId).bind (·.extractedWhatsapp)) (extractContactInfo utt).whatsapp, extractedEmail := jsOrS ((lookupA st.db callId).bind (·.extractedEmail)) (extractContactInfo utt).email }) o callId utt campaign (ac.conversationHistory ++ [⟨Role.user, utt, o.now⟩]) { whatsapp := jsOrS ((lookupA st.db callId).bind (·.extractedWhatsapp)) (extractContactInfo utt).whatsapp, email := jsOrS ((lookupA st.db callId).bind (·.extractedEmail)) (extractContactInfo utt).email } { ac with conversationHistory := ac.conversationHistory ++ [⟨Role.user, utt, o.now⟩] } (lookupA_mapInsert_self _ _ _) rfl
            refine ⟨ac2, ⟨Role.user, utt, o.now⟩ :: rest, ?_, ?_⟩
            · exact hl
            · rw [hh]
              simp

/-- C10: registering an already-tracked call id never clobbers its state:
ensureCallIsTracked is a no-op when the id is tracked, and a webhook turn
on a tracked id only ever extends the session history — it is never reset
to empty by a later registration or event. -/
theorem registration_never_clobbers (st : SysState) (o : TurnOracle)
    (callId utt : String) :
    (∀ dbc : DbCall, (lookupA st.activeCalls callId).isSome = true →
        ensureCallIsTracked st callId dbc = st)
    ∧ (∀ ac, lookupA st.activeCalls callId = some ac →
        ∃ ac2 rest,
          lookupA (processSpeechInput st o callId utt).2.activeCalls callId =
            some ac2
          ∧ ac2.conversationHistory = ac.conversationHistory ++ rest) := by
  constructor
  · intro dbc h
    unfold ensureCallIsTracked
    cases hl : lookupA st.activeCalls callId with
    | none => rw [hl] at h; simp at h
    | some a => simp
  · intro ac hac
    unfold processSpeechInput
    rw [hac]
    exact processTurn_registry_extends st o callId utt ac hac

/-- C10 witness: on the sample state, re-registration is a no-op and a
processed turn extends the tracked history. -/
theorem registration_never_clobbers_witness :
    ensureCallIsTracked sampleState "c1" sampleRecord = sampleState
    ∧ ∃ ac2 rest,
        lookupA (processSpeechInput sampleState sampleOracle "c1" "hey").2.activeCalls
            "c1" = some ac2
        ∧ ac2.conversationHistory = sampleSession.conversationHistory ++ rest :=
  ⟨(registration_never_clobbers sampleState sampleOracle "c1" "hey").1
      sampleRecord (by decide),
   (registration_never_clobbers sampleState sampleOracle "c1" "hey").2
      sampleSession (by decide)⟩

end CallMgr
